import Mathlib

/-!
Shallow embedding of `src/macros.rs` (the typed-argument coercion macros
`value_t!` and `value_t_or_exit!`, and the help-line formatter `get_help!`)
together with proofs of the specified properties.

Modelling choices:
* The external argument table (`ArgMatches` in the surrounding crate) is
  represented by its contract surface only: `value_of`, `values_of`, `usage`.
* The target type capability `v.parse::<T>()` (Rust `FromStr`) is a function
  `String → Option T`; the source discards the parse error payload
  (`Err(_)`), so `Option` is faithful.  `stringify!($t)` is carried as the
  `typeName` field.
* The recoverable macros return `Result<_, String>`; embedded as
  `Except String _` with the exact format strings of the source.
* The terminating macros print one line via `println!` and call
  `process::exit(1)`; a terminating failure is embedded as
  `Except.error (line, code)` where `line` is the string handed to
  `println!` (printed followed by a newline) and `code` the exit status.
  The `.ok` branch is the only one that returns to the caller.
-/

/-- The contract surface of the external argument table consumed by the
macros: single lookup, sequence lookup, and the usage string. -/
structure ArgTable where
  value_of : String → Option String
  values_of : String → Option (List String)
  usage : String

/-- The target-type capability used by the macros: `v.parse::<$t>()`
(with the error payload discarded, as in the source's `Err(_)` arms) and
`stringify!($t)`. -/
structure FromStr (T : Type) where
  parse : String → Option T
  typeName : String

/-- Embedding of `value_t!($m.value_of($v), $t)` — single-value,
recoverable arm (src/macros.rs lines 85–95). -/
def value_t {T : Type} (m : ArgTable) (v : String) (t : FromStr T) :
    Except String T :=
  match m.value_of v with
  | some s =>
    match t.parse s with
    | some val => Except.ok val
    | none => Except.error (s ++ " isn't a valid " ++ t.typeName)
  | none => Except.error ("Argument \"" ++ v ++ "\" not found")

/-- The loop body of the `values_of` arm of `value_t!`: iterate over the
raw values in order, pushing each successful parse onto `tmp`; on the
first failure record the error message and `break` (src/macros.rs
lines 99–109).  Returns the recorded error (if any) and `tmp`. -/
def values_t_loop {T : Type} (t : FromStr T) :
    List String → List T → Option String × List T
  | [], tmp => (none, tmp)
  | pv :: rest, tmp =>
    match t.parse pv with
    | some rv => values_t_loop t rest (tmp ++ [rv])
    | none => (some (pv ++ " isn't a valid " ++ t.typeName), tmp)

/-- Embedding of `value_t!($m.values_of($v), $t)` — multi-value,
recoverable arm (src/macros.rs lines 96–117). -/
def values_t {T : Type} (m : ArgTable) (v : String) (t : FromStr T) :
    Except String (List T) :=
  match m.values_of v with
  | some l =>
    match values_t_loop t l [] with
    | (some e, _) => Except.error e
    | (none, tmp) => Except.ok tmp
  | none => Except.error ("Argument \"" ++ v ++ "\" not found")

/-- The raw elements on which the loop of the `values_of` arm invokes
`parse`, mirroring its iteration/`break` structure: every element is
parsed in order until (and including) the first one whose parse fails. -/
def values_t_parsed {T : Type} (t : FromStr T) : List String → List String
  | [] => []
  | pv :: rest =>
    match t.parse pv with
    | some _ => pv :: values_t_parsed t rest
    | none => [pv]

/-- The trailer printed by every terminating failure path of
`value_t_or_exit!`. -/
def exit_trailer (m : ArgTable) : String :=
  "\n" ++ m.usage ++ "\nPlease re-run with --help for more information"

/-- Embedding of `value_t_or_exit!($m.value_of($v), $t)` — single-value,
terminating arm (src/macros.rs lines 167–188).  `Except.error
(line, code)` stands for "`println!` the line and
`process::exit(code)`". -/
def value_t_or_exit {T : Type} (m : ArgTable) (v : String) (t : FromStr T) :
    Except (String × Nat) T :=
  match m.value_of v with
  | some s =>
    match t.parse s with
    | some val => Except.ok val
    | none =>
      Except.error (s ++ " isn't a valid " ++ t.typeName ++ exit_trailer m, 1)
  | none =>
    Except.error
      ("Argument \"" ++ v ++ "\" not found or is not valid" ++ exit_trailer m, 1)

/-- The loop of the `values_of` arm of `value_t_or_exit!`: push each
successful parse, and on the first failure print the diagnostic and exit
(src/macros.rs lines 192–205). -/
def values_t_or_exit_loop {T : Type} (m : ArgTable) (t : FromStr T) :
    List String → List T → Except (String × Nat) (List T)
  | [], tmp => Except.ok tmp
  | pv :: rest, tmp =>
    match t.parse pv with
    | some rv => values_t_or_exit_loop m t rest (tmp ++ [rv])
    | none =>
      Except.error (pv ++ " isn't a valid " ++ t.typeName ++ exit_trailer m, 1)

/-- Embedding of `value_t_or_exit!($m.values_of($v), $t)` — multi-value,
terminating arm (src/macros.rs lines 189–214). -/
def values_t_or_exit {T : Type} (m : ArgTable) (v : String) (t : FromStr T) :
    Except (String × Nat) (List T) :=
  match m.values_of v with
  | some l => values_t_or_exit_loop m t l []
  | none =>
    Except.error
      ("Argument \"" ++ v ++ "\" not found or is not valid" ++ exit_trailer m, 1)

/-- The argument-definition metadata consumed by `get_help!`: an optional
help string and an optional list of permitted value names. -/
structure OptDescriptor where
  help : Option String
  possible_vals : Option (List String)

/-- Embedding of `get_help!($opt)` (src/macros.rs lines 2–15): the help
text followed,
when `possible_vals` is present, by `" [values:"`, each value preceded by
one space (the source's `fold` of `format!(" {}", name)`), and `"]"`;
four spaces when the help text is absent. -/
def get_help (opt : OptDescriptor) : String :=
  match opt.help with
  | some h =>
    h ++
      match opt.possible_vals with
      | some pv =>
        " [values:" ++ pv.foldl (fun acc name => acc ++ (" " ++ name)) "" ++ "]"
      | none => ""
  | none => "    "

/-! ### Helper lemmas about the loops -/

/-- The loop of the recoverable multi-value arm is accumulator-invariant:
running it with accumulator `tmp` prepends `tmp` to the result of running
it with an empty accumulator. -/
theorem values_t_loop_acc {T : Type} (t : FromStr T) (l : List String)
    (tmp : List T) :
    values_t_loop t l tmp =
      ((values_t_loop t l []).1, tmp ++ (values_t_loop t l []).2) := by
  induction l generalizing tmp with
  | nil => simp [values_t_loop]
  | cons pv rest ih =>
    cases hp : t.parse pv with
    | some rv =>
      simp only [values_t_loop, hp, List.nil_append]
      rw [ih (tmp ++ [rv]), ih [rv]]
      simp
    | none => simp [values_t_loop, hp]

/-- If every raw element parses (pointwise to `ts`), the recoverable loop
records no error and pushes exactly `ts` after the accumulator. -/
theorem values_t_loop_all_valid {T : Type} (t : FromStr T) :
    ∀ (l : List String) (ts : List T) (tmp : List T),
      l.map t.parse = ts.map some →
      values_t_loop t l tmp = (none, tmp ++ ts) := by
  intro l
  induction l with
  | nil =>
    intro ts tmp h
    cases ts with
    | nil => simp [values_t_loop]
    | cons a as => simp at h
  | cons pv rest ih =>
    intro ts tmp h
    cases ts with
    | nil => simp at h
    | cons rv ts' =>
      simp only [List.map_cons, List.cons.injEq] at h
      obtain ⟨h1, h2⟩ := h
      simp only [values_t_loop, h1]
      rw [ih ts' (tmp ++ [rv]) h2]
      simp

/-- If every element of `pre` parses and `vi` does not, the recoverable
loop records exactly the error message for `vi`. -/
theorem values_t_loop_first_fail {T : Type} (t : FromStr T) :
    ∀ (pre : List String) (vi : String) (post : List String) (tmp : List T),
      (∀ x ∈ pre, (t.parse x).isSome) →
      t.parse vi = none →
      (values_t_loop t (pre ++ vi :: post) tmp).1 =
        some (vi ++ " isn't a valid " ++ t.typeName) := by
  intro pre
  induction pre with
  | nil =>
    intro vi post tmp _ hvi
    simp [values_t_loop, hvi]
  | cons x pre' ih =>
    intro vi post tmp hpre hvi
    obtain ⟨rv, hrv⟩ := Option.isSome_iff_exists.mp (hpre x (by simp))
    simp only [List.cons_append, values_t_loop, hrv]
    exact ih vi post (tmp ++ [rv]) (fun y hy => hpre y (by simp [hy])) hvi

/-- Under the same first-failure hypotheses, the elements on which the
loop invokes `parse` are exactly `pre` followed by `vi`: nothing after
the first failing element is ever parsed. -/
theorem values_t_parsed_first_fail {T : Type} (t : FromStr T) :
    ∀ (pre : List String) (vi : String) (post : List String),
      (∀ x ∈ pre, (t.parse x).isSome) →
      t.parse vi = none →
      values_t_parsed t (pre ++ vi :: post) = pre ++ [vi] := by
  intro pre
  induction pre with
  | nil =>
    intro vi post _ hvi
    simp [values_t_parsed, hvi]
  | cons x pre' ih =>
    intro vi post hpre hvi
    obtain ⟨rv, hrv⟩ := Option.isSome_iff_exists.mp (hpre x (by simp))
    simp only [List.cons_append, values_t_parsed, hrv]
    exact congrArg (fun l => x :: l)
      (ih vi post (fun y hy => hpre y (by simp [hy])) hvi)

/-- If every raw element parses (pointwise to `ts`), the terminating loop
returns the accumulator followed by exactly `ts`. -/
theorem values_t_or_exit_loop_all_valid {T : Type} (m : ArgTable)
    (t : FromStr T) :
    ∀ (l : List String) (ts : List T) (tmp : List T),
      l.map t.parse = ts.map some →
      values_t_or_exit_loop m t l tmp = Except.ok (tmp ++ ts) := by
  intro l
  induction l with
  | nil =>
    intro ts tmp h
    cases ts with
    | nil => simp [values_t_or_exit_loop]
    | cons a as => simp at h
  | cons pv rest ih =>
    intro ts tmp h
    cases ts with
    | nil => simp at h
    | cons rv ts' =>
      simp only [List.map_cons, List.cons.injEq] at h
      obtain ⟨h1, h2⟩ := h
      simp only [values_t_or_exit_loop, h1]
      rw [ih ts' (tmp ++ [rv]) h2]
      simp

/-- If every element of `pre` parses and `vi` does not, the terminating
loop exits with the diagnostic for `vi` and status 1. -/
theorem values_t_or_exit_loop_first_fail {T : Type} (m : ArgTable)
    (t : FromStr T) :
    ∀ (pre : List String) (vi : String) (post : List String) (tmp : List T),
      (∀ x ∈ pre, (t.parse x).isSome) →
      t.parse vi = none →
      values_t_or_exit_loop m t (pre ++ vi :: post) tmp =
        Except.error
          (vi ++ " isn't a valid " ++ t.typeName ++ exit_trailer m, 1) := by
  intro pre
  induction pre with
  | nil =>
    intro vi post tmp _ hvi
    simp [values_t_or_exit_loop, hvi]
  | cons x pre' ih =>
    intro vi post tmp hpre hvi
    obtain ⟨rv, hrv⟩ := Option.isSome_iff_exists.mp (hpre x (by simp))
    simp only [List.cons_append, values_t_or_exit_loop, hrv]
    exact ih vi post (tmp ++ [rv]) (fun y hy => hpre y (by simp [hy])) hvi

/-- Joining a non-empty list of strings appends the head to the join of
the tail. -/
theorem string_join_cons (x : String) (xs : List String) :
    String.join (x :: xs) = x ++ String.join xs := by
  apply String.ext
  simp [String.join_eq, String.data_append]

/-- The `fold` of `format!(" {}", name)` in `get_help!` concatenates one
space-prefixed copy of each value after the accumulator. -/
theorem get_help_fold_eq_join :
    ∀ (pv : List String) (s : String),
      pv.foldl (fun acc name => acc ++ (" " ++ name)) s =
        s ++ String.join (pv.map fun name => " " ++ name) := by
  intro pv
  induction pv with
  | nil =>
    intro s
    simp [String.join]
  | cons a l ih =>
    intro s
    simp only [List.foldl_cons, List.map_cons]
    rw [ih (s ++ (" " ++ a)), string_join_cons, String.append_assoc]

/-! ### Concrete fixtures used by the witness theorems -/

/-- A sample target-type capability: a `u32`-style parser defined on the
raw values of the end-to-end scenario (`"20"`, `"45"` parse; anything
else, e.g. `"abc"`, fails), with display name `u32`. -/
def u32 : FromStr Nat :=
  ⟨fun s => if s = "20" then some 20 else if s = "45" then some 45 else none,
   "u32"⟩

/-- A sample argument table: `length = "20"`, `width = "abc"`,
`height = "abc"`; sequences `seq = ["20", "abc", "45"]`,
`ok = ["20", "45"]`, `empty = []`; every other name absent. -/
def sampleTable : ArgTable where
  value_of := fun name =>
    if name = "length" then some "20"
    else if name = "width" then some "abc"
    else if name = "height" then some "abc"
    else none
  values_of := fun name =>
    if name = "seq" then some ["20", "abc", "45"]
    else if name = "ok" then some ["20", "45"]
    else if name = "empty" then some []
    else none
  usage := "USAGE: myapp [FLAGS] [OPTIONS]"

/-! ### Claim theorems -/

/-- C1: for every target type `T` and every argument present with raw
value `s` that parses successfully as `T`, the recoverable single-value
coercion (`value_t!` with `value_of`) returns `Ok` of exactly the value
`T`'s parse function produces on `s`. -/
theorem value_t_ok_of_parse_ok {T : Type} (m : ArgTable) (name s : String)
    (t : FromStr T) (val : T)
    (hs : m.value_of name = some s) (hp : t.parse s = some val) :
    value_t m name t = Except.ok val := by
  simp only [value_t, hs, hp]

/-- Witness for C1: in the sample table, `length = "20"` coerced as `u32`
yields `Ok 20`, the exact value the parser produces on `"20"`. -/
theorem value_t_ok_of_parse_ok_witness :
    sampleTable.value_of "length" = some "20" ∧
    u32.parse "20" = some 20 ∧
    value_t sampleTable "length" u32 = Except.ok 20 :=
  ⟨rfl, rfl, value_t_ok_of_parse_ok sampleTable "length" "20" u32 20 rfl rfl⟩

/-- C3: for every argument name absent from the table, both recoverable
variants fail with the missing-argument error naming that argument (the
source's `Argument "<name>" not found` message), never a success and
never the `isn't a valid`-shaped invalid error. -/
theorem value_t_missing {T : Type} (m : ArgTable) (name : String)
    (t : FromStr T)
    (h1 : m.value_of name = none) (h2 : m.values_of name = none) :
    value_t m name t =
      Except.error ("Argument \"" ++ name ++ "\" not found") ∧
    values_t m name t =
      Except.error ("Argument \"" ++ name ++ "\" not found") := by
  constructor
  · simp only [value_t, h1]
  · simp only [values_t, h2]

/-- Witness for C3: the name `missing` is absent from the sample table
and both recoverable coercions report exactly `Argument "missing" not
found`. -/
theorem value_t_missing_witness :
    sampleTable.value_of "missing" = none ∧
    sampleTable.values_of "missing" = none ∧
    value_t sampleTable "missing" u32 =
      Except.error ("Argument \"" ++ "missing" ++ "\" not found") ∧
    values_t sampleTable "missing" u32 =
      Except.error ("Argument \"" ++ "missing" ++ "\" not found") := by
  refine ⟨rfl, rfl, ?_, ?_⟩
  · exact (value_t_missing sampleTable "missing" u32 rfl rfl).1
  · exact (value_t_missing sampleTable "missing" u32 rfl rfl).2

/-- C4 counterexample: the table holds `width = "abc"` and
`height = "abc"`; coercing either as `u32` yields the very same error
`abc isn't a valid u32`, whose text does not contain the argument name
(`"width"` is not an infix of it): the invalid-value error carries the
raw value and the type name but not the argument name, contradicting the
claimed `ArgumentInvalid(rawValue, name, typeName)` shape. -/
theorem value_t_invalid_no_name_counterexample :
    value_t sampleTable "width" u32 =
      Except.error "abc isn't a valid u32" ∧
    value_t sampleTable "height" u32 =
      Except.error "abc isn't a valid u32" ∧
    value_t sampleTable "width" u32 = value_t sampleTable "height" u32 ∧
    ¬ ("width".data <:+: "abc isn't a valid u32".data) := by
  refine ⟨rfl, rfl, rfl, by decide⟩

/-- C4 (amended): for every argument present with a raw value that fails
to parse as `T`, the recoverable single-value coercion fails with the
invalid-value error carrying the raw value and the target type's display
name — `<rawValue> isn't a valid <typeName>` — but not the argument
name. -/
theorem value_t_invalid {T : Type} (m : ArgTable) (name s : String)
    (t : FromStr T)
    (hs : m.value_of name = some s) (hp : t.parse s = none) :
    value_t m name t =
      Except.error (s ++ " isn't a valid " ++ t.typeName) := by
  simp only [value_t, hs, hp]

/-- Witness for the amended C4: `width = "abc"` coerced as `u32` fails
with exactly `abc isn't a valid u32`. -/
theorem value_t_invalid_witness :
    sampleTable.value_of "width" = some "abc" ∧
    u32.parse "abc" = none ∧
    value_t sampleTable "width" u32 =
      Except.error ("abc" ++ " isn't a valid " ++ "u32") :=
  ⟨rfl, rfl, value_t_invalid sampleTable "width" "abc" u32 rfl rfl⟩

/-- C2: when the present sequence splits as `pre ++ vi :: post` with
every element of `pre` parseable and `vi` the first failing element, the
recoverable multi-value coercion returns exactly the invalid-value error
naming `vi` (an error string carrying no partial sequence of converted
values), and the elements on which the loop invokes `parse` are exactly
`pre ++ [vi]` — no element after `vi` is ever parsed. -/
theorem values_t_fail_fast {T : Type} (m : ArgTable) (name : String)
    (t : FromStr T) (pre : List String) (vi : String) (post : List String)
    (hl : m.values_of name = some (pre ++ vi :: post))
    (hpre : ∀ x ∈ pre, (t.parse x).isSome)
    (hvi : t.parse vi = none) :
    values_t m name t =
      Except.error (vi ++ " isn't a valid " ++ t.typeName) ∧
    values_t_parsed t (pre ++ vi :: post) = pre ++ [vi] := by
  have hloop := values_t_loop_first_fail t pre vi post [] hpre hvi
  constructor
  · simp only [values_t, hl]
    cases hr : values_t_loop t (pre ++ vi :: post) [] with
    | mk e tmp =>
      rw [hr] at hloop
      simp only at hloop
      rw [hloop]
  · exact values_t_parsed_first_fail t pre vi post hpre hvi

/-- Witness for C2: `seq = ["20", "abc", "45"]` coerced as `u32` fails
with exactly `abc isn't a valid u32`, and only `"20"` and `"abc"` are
parsed — `"45"` never is. -/
theorem values_t_fail_fast_witness :
    sampleTable.values_of "seq" = some (["20"] ++ "abc" :: ["45"]) ∧
    (∀ x ∈ ["20"], (u32.parse x).isSome) ∧
    u32.parse "abc" = none ∧
    values_t sampleTable "seq" u32 =
      Except.error ("abc" ++ " isn't a valid " ++ "u32") ∧
    values_t_parsed u32 (["20"] ++ "abc" :: ["45"]) = ["20"] ++ ["abc"] := by
  refine ⟨rfl, by decide, rfl, ?_, ?_⟩
  · exact (values_t_fail_fast sampleTable "seq" u32 ["20"] "abc" ["45"]
      rfl (by decide) rfl).1
  · exact (values_t_fail_fast sampleTable "seq" u32 ["20"] "abc" ["45"]
      rfl (by decide) rfl).2

/-- The empty string is a left identity for append. -/
theorem string_empty_append (s : String) : "" ++ s = s := by
  apply String.ext
  simp [String.data_append]

/-- C5: for an all-valid present sequence (each element parsing pointwise
to `ts`), both multi-value coercions — recoverable and terminating —
return exactly `ts`: the same length as the input, in input order, with
element `i` of the output the parse of element `i` of the input. -/
theorem values_t_all_valid {T : Type} (m : ArgTable) (name : String)
    (t : FromStr T) (l : List String) (ts : List T)
    (hl : m.values_of name = some l)
    (h : l.map t.parse = ts.map some) :
    values_t m name t = Except.ok ts ∧
    values_t_or_exit m name t = Except.ok ts ∧
    ts.length = l.length := by
  have h1 := values_t_loop_all_valid t l ts [] h
  have h2 := values_t_or_exit_loop_all_valid m t l ts [] h
  refine ⟨?_, ?_, ?_⟩
  · simp only [values_t, hl, h1, List.nil_append]
  · simp only [values_t_or_exit, hl, h2, List.nil_append]
  · simpa using (congrArg List.length h).symm

/-- Witness for C5: `ok = ["20", "45"]` coerced as `u32` yields
`[20, 45]` from both variants, length 2 in input order. -/
theorem values_t_all_valid_witness :
    sampleTable.values_of "ok" = some ["20", "45"] ∧
    (["20", "45"].map u32.parse = [20, 45].map some) ∧
    values_t sampleTable "ok" u32 = Except.ok [20, 45] ∧
    values_t_or_exit sampleTable "ok" u32 = Except.ok [20, 45] ∧
    ([20, 45] : List Nat).length = ["20", "45"].length := by
  refine ⟨rfl, by decide, ?_, ?_, ?_⟩
  · exact (values_t_all_valid sampleTable "ok" u32 ["20", "45"] [20, 45]
      rfl (by decide)).1
  · exact (values_t_all_valid sampleTable "ok" u32 ["20", "45"] [20, 45]
      rfl (by decide)).2.1
  · exact (values_t_all_valid sampleTable "ok" u32 ["20", "45"] [20, 45]
      rfl (by decide)).2.2

/-- C6: when a present raw value (single case, argument `v1`) or the
first failing element of a present sequence (multi case, argument `v2`)
fails to parse, each terminating variant prints — via one `println!`, so
followed by a final newline — exactly
`<bad-input> isn't a valid <type-name>`, a newline, the table's usage
string, a newline, and `Please re-run with --help for more information`,
and exits with status 1; the `Except.error` result is the non-returning
branch. -/
theorem value_t_or_exit_invalid {T : Type} (m : ArgTable)
    (v1 v2 s : String) (t : FromStr T)
    (pre : List String) (vi : String) (post : List String)
    (hs : m.value_of v1 = some s) (hp : t.parse s = none)
    (hl : m.values_of v2 = some (pre ++ vi :: post))
    (hpre : ∀ x ∈ pre, (t.parse x).isSome)
    (hvi : t.parse vi = none) :
    value_t_or_exit m v1 t =
      Except.error
        (s ++ " isn't a valid " ++ t.typeName ++ "\n" ++ m.usage ++
          "\nPlease re-run with --help for more information", 1) ∧
    values_t_or_exit m v2 t =
      Except.error
        (vi ++ " isn't a valid " ++ t.typeName ++ "\n" ++ m.usage ++
          "\nPlease re-run with --help for more information", 1) := by
  constructor
  · simp only [value_t_or_exit, hs, hp, exit_trailer, String.append_assoc]
  · simp only [values_t_or_exit, hl]
    rw [values_t_or_exit_loop_first_fail m t pre vi post [] hpre hvi]
    simp only [exit_trailer, String.append_assoc]

/-- Witness for C6: `width = "abc"` and `seq = ["20", "abc", "45"]`
coerced as `u32` both make the terminating variants print the exact
diagnostic for `"abc"` with the sample usage string and exit status 1. -/
theorem value_t_or_exit_invalid_witness :
    sampleTable.value_of "width" = some "abc" ∧
    u32.parse "abc" = none ∧
    sampleTable.values_of "seq" = some (["20"] ++ "abc" :: ["45"]) ∧
    value_t_or_exit sampleTable "width" u32 =
      Except.error
        ("abc" ++ " isn't a valid " ++ "u32" ++ "\n" ++ sampleTable.usage ++
          "\nPlease re-run with --help for more information", 1) ∧
    values_t_or_exit sampleTable "seq" u32 =
      Except.error
        ("abc" ++ " isn't a valid " ++ "u32" ++ "\n" ++ sampleTable.usage ++
          "\nPlease re-run with --help for more information", 1) := by
  refine ⟨rfl, rfl, rfl, ?_, ?_⟩
  · exact (value_t_or_exit_invalid sampleTable "width" "seq" "abc" u32
      ["20"] "abc" ["45"] rfl rfl rfl (by decide) rfl).1
  · exact (value_t_or_exit_invalid sampleTable "width" "seq" "abc" u32
      ["20"] "abc" ["45"] rfl rfl rfl (by decide) rfl).2

/-- C7: for every argument name absent from the table, both terminating
variants print — via one `println!` — exactly
`Argument "<name>" not found or is not valid`, a newline, the usage
string, a newline, and `Please re-run with --help for more information`,
and exit with status 1: the missing-argument message of the terminating
path conflates "not found" with "not valid". -/
theorem value_t_or_exit_missing {T : Type} (m : ArgTable) (name : String)
    (t : FromStr T)
    (h1 : m.value_of name = none) (h2 : m.values_of name = none) :
    value_t_or_exit m name t =
      Except.error
        ("Argument \"" ++ name ++ "\" not found or is not valid" ++ "\n" ++
          m.usage ++ "\nPlease re-run with --help for more information", 1) ∧
    values_t_or_exit m name t =
      Except.error
        ("Argument \"" ++ name ++ "\" not found or is not valid" ++ "\n" ++
          m.usage ++ "\nPlease re-run with --help for more information", 1) := by
  constructor
  · simp only [value_t_or_exit, h1, exit_trailer, String.append_assoc]
  · simp only [values_t_or_exit, h2, exit_trailer, String.append_assoc]

/-- Witness for C7: the name `missing` is absent and both terminating
variants print the conflated `not found or is not valid` message with
exit status 1. -/
theorem value_t_or_exit_missing_witness :
    sampleTable.value_of "missing" = none ∧
    sampleTable.values_of "missing" = none ∧
    value_t_or_exit sampleTable "missing" u32 =
      Except.error
        ("Argument \"" ++ "missing" ++ "\" not found or is not valid" ++
          "\n" ++ sampleTable.usage ++
          "\nPlease re-run with --help for more information", 1) ∧
    values_t_or_exit sampleTable "missing" u32 =
      Except.error
        ("Argument \"" ++ "missing" ++ "\" not found or is not valid" ++
          "\n" ++ sampleTable.usage ++
          "\nPlease re-run with --help for more information", 1) := by
  refine ⟨rfl, rfl, ?_, ?_⟩
  · exact (value_t_or_exit_missing sampleTable "missing" u32 rfl rfl).1
  · exact (value_t_or_exit_missing sampleTable "missing" u32 rfl rfl).2

/-- C10: for an argument whose value sequence is present but empty, both
multi-value coercions succeed with the empty sequence: no missing- or
invalid-argument error, no diagnostic, no exit. -/
theorem values_t_present_empty {T : Type} (m : ArgTable) (name : String)
    (t : FromStr T) (h : m.values_of name = some []) :
    values_t m name t = Except.ok [] ∧
    values_t_or_exit m name t = Except.ok [] := by
  constructor
  · simp only [values_t, h, values_t_loop]
  · simp only [values_t_or_exit, h, values_t_or_exit_loop]

/-- Witness for C10: `empty = []` coerced as `u32` yields `Ok []` from
the recoverable variant and `[]` from the terminating one. -/
theorem values_t_present_empty_witness :
    sampleTable.values_of "empty" = some [] ∧
    values_t sampleTable "empty" u32 = Except.ok [] ∧
    values_t_or_exit sampleTable "empty" u32 = Except.ok [] := by
  refine ⟨rfl, ?_, ?_⟩
  · exact (values_t_present_empty sampleTable "empty" u32 rfl).1
  · exact (values_t_present_empty sampleTable "empty" u32 rfl).2

/-- C8: for every descriptor whose help text is absent, `get_help!`
returns exactly four space characters — regardless of the allowed-values
field — and never the empty string. -/
theorem get_help_no_help (opt : OptDescriptor) (h : opt.help = none) :
    get_help opt = "    " ∧ get_help opt ≠ "" := by
  constructor
  · simp only [get_help, h]
  · simp only [get_help, h]
    decide

/-- Witness for C8: descriptors with no help text yield four spaces both
with an allowed-values list present and with it absent. -/
theorem get_help_no_help_witness :
    (OptDescriptor.mk none (some ["fast", "slow"])).help = none ∧
    get_help (OptDescriptor.mk none (some ["fast", "slow"])) = "    " ∧
    (OptDescriptor.mk none none).help = none ∧
    get_help (OptDescriptor.mk none none) = "    " ∧
    get_help (OptDescriptor.mk none (some ["fast", "slow"])) ≠ "" :=
  ⟨rfl,
   (get_help_no_help (OptDescriptor.mk none (some ["fast", "slow"])) rfl).1,
   rfl,
   (get_help_no_help (OptDescriptor.mk none none) rfl).1,
   (get_help_no_help (OptDescriptor.mk none (some ["fast", "slow"])) rfl).2⟩

/-- C9: for a descriptor with help text `h`, `get_help!` returns `h`
followed by ` [values:` plus each allowed value preceded by one space
plus `]` when the allowed-values list is present (e.g. `"Mode"` with
`["fast", "slow"]` gives `Mode [values: fast slow]`), by no suffix when
it is absent, and by the literal ` [values:]` when it is present but
empty. -/
theorem get_help_with_help (h : String) (pv : List String) :
    get_help (OptDescriptor.mk (some h) (some pv)) =
      h ++ " [values:" ++
        String.join (pv.map fun name => " " ++ name) ++ "]" ∧
    get_help (OptDescriptor.mk (some h) none) = h ∧
    get_help (OptDescriptor.mk (some h) (some [])) = h ++ " [values:]" ∧
    get_help (OptDescriptor.mk (some "Mode") (some ["fast", "slow"])) =
      "Mode [values: fast slow]" := by
  refine ⟨?_, ?_, ?_, by decide⟩
  · simp only [get_help]
    rw [get_help_fold_eq_join pv "", string_empty_append]
    simp [String.append_assoc]
  · simp [get_help, String.append_empty]
  · simp only [get_help, List.foldl_nil, String.append_empty]
    have hb : (" [values:" : String) ++ "]" = " [values:]" := by decide
    rw [hb]
